import Mathlib

/-!
Shallow embedding of the vkbottle core checked here: the user message rules
(`src/vkbottle/dispatch/rules/user.py`), the user long-poll loop
(`src/vkbottle/polling/user_polling.py`) and the bot labeler
(`src/vkbottle/framework/bot/labeler/default.py`).

Python dictionaries are modelled as association lists in insertion order
(CPython ≥ 3.7 guarantees insertion order); `d[k] = v` keeps the position of
an existing key and appends a fresh one, which `dictSet` below reproduces.
-/

/-- Python dictionary read `d[k]` on an association list: the value at the
first matching key, `none` when the key is absent (a `KeyError` in Python). -/
def dictLookup {K V : Type} [DecidableEq K] (k : K) : List (K × V) → Option V
  | [] => none
  | p :: d => if p.1 = k then some p.2 else dictLookup k d

/-- Python `d[k] = v` on an insertion-ordered dictionary modelled as an
association list: an existing key keeps its position and gets the new value,
a fresh key is appended at the end. -/
def dictSet {K V : Type} [DecidableEq K] (d : List (K × V)) (k : K) (v : V) :
    List (K × V) :=
  if d.any (fun p => p.1 = k) then
    d.map (fun p => if p.1 = k then (p.1, v) else p)
  else d ++ [(k, v)]

/-- Python `d.update(o)` on insertion-ordered dictionaries: sets each pair of
`o` in order into `d`. -/
def dictUpdate {K V : Type} [DecidableEq K] (d o : List (K × V)) :
    List (K × V) :=
  o.foldl (fun acc kv => dictSet acc kv.1 kv.2) d

section Rules

/-- Sticker payload of an attachment: only the `sticker_id` field is read by
the rules (`message.attachments[0].sticker.sticker_id`). -/
structure Sticker where
  sticker_id : Int
deriving DecidableEq

/-- One attachment of a message. `type` is the string
`attachment.type.value`; `sticker` is the optional sticker payload. -/
structure Attachment where
  type : String
  sticker : Option Sticker
deriving DecidableEq

/-- The state entry attached to a message peer (`message.state_peer`): a
record whose `state` field holds the current state value of the peer. The
type of state values (`BaseStateGroup` instances) is the parameter `σ`. -/
structure StatePeer (σ : Type) where
  state : σ
deriving DecidableEq

/-- The message fields read by the rules under verification:
`message.text`, `message.attachments` and `message.state_peer` (absent when
the peer has no current state entry). -/
structure Message (σ : Type) where
  text : String
  attachments : List Attachment
  state_peer : Option (StatePeer σ)

/-- Argument accepted by `StateRule.__init__`: `None`, a single state value,
or a list of state values (`Union[List[BaseStateGroup], BaseStateGroup]`,
with `None` reaching the `state is None` test). -/
inductive StateArg (σ : Type) where
  | none
  | single (s : σ)
  | list (l : List σ)

/-- StateRule configuration after `__init__` normalised the argument to a
list (`if not isinstance(state, list): state = [] if state is None else
[state]`). -/
structure StateRule (σ : Type) where
  state : List σ

/-- StateRule constructor, from `StateRule.__init__`. -/
def StateRule.ofArg {σ : Type} : StateArg σ → StateRule σ
  | .none => ⟨[]⟩
  | .single s => ⟨[s]⟩
  | .list l => ⟨l⟩

/-- StateRule.check: `if message.state_peer is None: return not self.state;
return message.state_peer.state in self.state`. -/
def StateRule.check {σ : Type} [DecidableEq σ] (r : StateRule σ)
    (m : Message σ) : Bool :=
  match m.state_peer with
  | none => r.state.isEmpty
  | some sp => decide (sp.state ∈ r.state)

/-- Argument accepted by `AttachmentTypeRule.__init__`: one type name or a
list of type names (`Union[List[str], str]`). -/
inductive StrArg where
  | single (s : String)
  | list (l : List String)

/-- AttachmentTypeRule configuration after `__init__` wrapped a non-list
argument into a singleton list. -/
structure AttachmentTypeRule where
  attachment_types : List String

/-- AttachmentTypeRule constructor, from `AttachmentTypeRule.__init__`. -/
def AttachmentTypeRule.ofArg : StrArg → AttachmentTypeRule
  | .single s => ⟨[s]⟩
  | .list l => ⟨l⟩

/-- AttachmentTypeRule.check: returns `False` when the message has no
attachments, then returns `False` on the first attachment whose
`type.value` is not in the configured list, else `True`. -/
def AttachmentTypeRule.check {σ : Type} (r : AttachmentTypeRule)
    (m : Message σ) : Bool :=
  if m.attachments.isEmpty then false
  else m.attachments.all (fun a => decide (a.type ∈ r.attachment_types))

/-- Argument accepted by `StickerRule.__init__`:
`Union[List[int], int, bool]`. -/
inductive StickerArg where
  | ids (l : List Int)
  | id (n : Int)
  | flag (b : Bool)

/-- StickerRule configuration after `__init__` wrapped a non-list argument
into a singleton list. A boolean element is kept by Python as `True`/`False`
inside the list; since the list is only consumed by truthiness (`not
self.sticker_ids`) and by `in`, whose `==` identifies `True` with `1` and
`False` with `0` (Python `bool` is a subtype of `int`), the element is
represented here by that integer. -/
structure StickerRule where
  sticker_ids : List Int

/-- StickerRule constructor, from `StickerRule.__init__`. -/
def StickerRule.ofArg : StickerArg → StickerRule
  | .ids l => ⟨l⟩
  | .id n => ⟨[n]⟩
  | .flag b => ⟨[if b then 1 else 0]⟩

/-- StickerRule.check: `if message.attachments and
message.attachments[0].sticker: return not self.sticker_ids or
bool(... .sticker_id in self.sticker_ids)`, else `False`. -/
def StickerRule.check {σ : Type} (r : StickerRule) (m : Message σ) : Bool :=
  match m.attachments with
  | [] => false
  | a :: _ =>
    match a.sticker with
    | none => false
    | some st => r.sticker_ids.isEmpty || decide (st.sticker_id ∈ r.sticker_ids)

/-- Inner loop of `LevensteinRule.distance`: given the character `b[i-1]`
(`bc`), the value `current_row[j-1]` (`left`), the remaining characters
`a[j-1], a[j], ...` and the previous row starting at index `j-1`
(`previous_row[j-1] :: previous_row[j] :: ...`), produces
`current_row[j], current_row[j+1], ...` by
`min(previous_row[j] + 1, current_row[j-1] + 1, previous_row[j-1] + change)`
where `change` is 1 when the characters differ. -/
def levRowAux (bc : Char) : Nat → List Char → List Nat → List Nat
  | left, ac :: as, diag :: above :: rest =>
    let cur := min (above + 1) (min (left + 1) (diag + (if ac = bc then 0 else 1)))
    cur :: levRowAux bc cur as (above :: rest)
  | _, _, _ => []

/-- One iteration of the outer loop of `LevensteinRule.distance`:
`current_row = [i] + [0]*n` filled in by the inner loop. -/
def levNextRow (a : List Char) (bc : Char) (i : Nat) (prev : List Nat) :
    List Nat :=
  i :: levRowAux bc i a prev

/-- Outer loop of `LevensteinRule.distance`: one row per character of `b`,
with the row index `i` counting up from 1. -/
def levRows (a : List Char) : List Char → Nat → List Nat → List Nat
  | [], _, row => row
  | bc :: bs, i, row => levRows a bs (i + 1) (levNextRow a bc i row)

/-- LevensteinRule.distance: the two-row dynamic program from the source.
After `n, m = len(a), len(b)` the operands are swapped when `n > m` so that
`a` is the shorter; `current_row` starts as `range(n + 1)` and the result is
`current_row[n]`. -/
def LevensteinRule.distance (a b : String) : Nat :=
  let n := a.length
  let m := b.length
  let p := if n > m then (b.data, a.data) else (a.data, b.data)
  (levRows p.1 p.2 1 (List.range (p.1.length + 1))).getD p.1.length 0

/-- LevensteinRule configuration after `__init__` wrapped a single string
into a list. -/
structure LevensteinRule where
  levenstein_texts : List String
  max_distance : Int

/-- LevensteinRule constructor, from `LevensteinRule.__init__`
(`max_distance` defaults to 1 at the call sites). -/
def LevensteinRule.ofArg (t : StrArg) (max_distance : Int) : LevensteinRule :=
  match t with
  | .single s => ⟨[s], max_distance⟩
  | .list l => ⟨l, max_distance⟩

/-- LevensteinRule.check: returns `True` on the first configured text whose
distance to the message text is at most `max_distance`, else `False`. -/
def LevensteinRule.check {σ : Type} (r : LevensteinRule) (m : Message σ) :
    Bool :=
  r.levenstein_texts.any (fun t =>
    decide ((LevensteinRule.distance m.text t : Int) ≤ r.max_distance))

/-- Reference Levenshtein distance, by the textbook recursion on the front
of both lists, with unit insert and delete costs and substitution cost 1 for
distinct characters. -/
def lev : List Char → List Char → Nat
  | [], ys => ys.length
  | _ :: xs, [] => xs.length + 1
  | x :: xs, y :: ys =>
    min (lev xs (y :: ys) + 1)
      (min (lev (x :: xs) ys + 1) (lev xs ys + (if x = y then 0 else 1)))
termination_by xs ys => xs.length + ys.length
decreasing_by all_goals simp_arith

/-- Row of reference distances: entry `j` is the distance between the
reversal of `ra` extended with the first `j` characters of `as`, and `rb`.
The dynamic program's row `i` (after consuming `i` characters of `b`) is
this list for `ra = []`, `as = a` and `rb` the reversed consumed part of
`b`. -/
def prefRowFrom (rb : List Char) : List Char → List Char → List Nat
  | ra, [] => [lev ra rb]
  | ra, x :: xs => lev ra rb :: prefRowFrom rb (x :: ra) xs

end Rules

section Polling

/-- Long-poll session descriptor, the `server` dict of `UserPolling.listen`:
`server` and `key` from `messages.getLongPollServer`, `ts` the event
cursor. -/
structure Server where
  server : String
  key : String
  ts : Nat
deriving DecidableEq

/-- Decoded long-poll response, the `event` dict of `UserPolling.listen`:
`failed` is the optional session-expiry code read by `event.get("failed")`
(absent on a normal batch), `ts` the next cursor read by `event["ts"]`. -/
structure PollEvent where
  failed : Option Int
  ts : Nat
deriving DecidableEq

/-- Python truthiness of `event.get("failed")`: absent (`None`) and `0` are
falsy, any other integer code is truthy. -/
def PollEvent.failedTruthy (e : PollEvent) : Bool :=
  match e.failed with
  | none => false
  | some n => decide (n ≠ 0)

/-- Outcome of one `get_event` call inside the `try` block: a decoded
response, or an exception (`except BaseException as e`), exceptions drawn
from the opaque type `E`. -/
inductive PollOutcome (E : Type) where
  | success (ev : PollEvent)
  | failure (e : E)

/-- Transport operation issued by the listen loop: a session acquisition
(`get_server`, i.e. `messages.getLongPollServer`) or a long poll
(`get_event`) carrying the session descriptor it uses. -/
inductive TransportCall where
  | getServer
  | poll (s : Server)
deriving DecidableEq

/-- UserPolling.listen loop body as a trace function. The loop is driven by
the list of `get_event` outcomes (the list ending models `self.stop`
becoming true); `oracle k` is the session descriptor returned by the
`(k + 1)`-th `get_server` call. The result collects, in order: the
transport calls issued, the events yielded, and the exceptions passed to
`self.error_handler.handle`. Per iteration, from the source: a response
with truthy `failed` triggers `server = await self.get_server(); continue`;
a normal response advances `server["ts"] = event["ts"]` and yields; an
exception is handed to the error handler and the loop retries with the
unchanged descriptor. -/
def UserPolling.listenRun {E : Type} (oracle : Nat → Server) :
    List (PollOutcome E) → Server → Nat →
      List TransportCall × List PollEvent × List E
  | [], _, _ => ([], [], [])
  | .success ev :: os, srv, k =>
    if ev.failedTruthy then
      let rest := UserPolling.listenRun oracle os (oracle k) (k + 1)
      (.poll srv :: .getServer :: rest.1, rest.2.1, rest.2.2)
    else
      let rest := UserPolling.listenRun oracle os { srv with ts := ev.ts } k
      (.poll srv :: rest.1, ev :: rest.2.1, rest.2.2)
  | .failure e :: os, srv, k =>
    let rest := UserPolling.listenRun oracle os srv k
    (.poll srv :: rest.1, rest.2.1, e :: rest.2.2)

/-- UserPolling.listen: acquires the initial session descriptor with
`get_server` and enters the loop. -/
def UserPolling.listen {E : Type} (oracle : Nat → Server)
    (os : List (PollOutcome E)) :
    List TransportCall × List PollEvent × List E :=
  let rest := UserPolling.listenRun oracle os (oracle 0) 1
  (.getServer :: rest.1, rest.2.1, rest.2.2)

end Polling

section Labeler

/-- Value stored in a labeler's `rule_config` dictionary: a regex flag set
(an integer bitmask; `re.MULTILINE` is 8, `re.IGNORECASE` is 2) or the
opaque `vbml.Patcher` instance. -/
inductive ConfigVal where
  | flags (n : Nat)
  | patcher
deriving DecidableEq

/-- The `rule_config` dictionary of a BotLabeler. -/
def RuleConfig := List (String × ConfigVal)
deriving DecidableEq

/-- The `rule_config` built by `BotLabeler.__init__`: exactly the keys
`vbml_flags` (set to `re.MULTILINE`, value 8) and `vbml_patcher`. -/
def initRuleConfig : RuleConfig :=
  [(("vbml_flags"), ConfigVal.flags 8), (("vbml_patcher"), ConfigVal.patcher)]

/-- FromFuncHandler as constructed by the labeler decorators: the decorated
function, the resolved rule list, and the blocking flag. The class itself
lives in `vkbottle.dispatch.handlers` (outside src); only the argument list
built in `default.py` is relevant here. Rule values are taken opaquely from
`R` (the shorthand conversion `convert_shorten_filter` is outside src). -/
structure FromFuncHandler (F R : Type) where
  func : F
  rules : List R
  blocking : Bool
deriving DecidableEq

/-- BotHandlerBasement stored per event name by `raw_event`: the dataclass
and the wrapped handler (class from `vkbottle.dispatch.views`, outside src;
only the construction in `default.py` matters here). -/
structure BotHandlerBasement (D F R : Type) where
  dataclass : D
  handler : FromFuncHandler F R
deriving DecidableEq

/-- BotMessageView as used by `default.py`: `handlers` is a list (extended
by `append`/`extend`), `middlewares` a list. -/
structure BotMessageView (F R M : Type) where
  handlers : List (FromFuncHandler F R)
  middlewares : List M
deriving DecidableEq

/-- BotRawEventView as used by `default.py`: `handlers` is a dictionary
keyed by raw event name (written by `handlers[e] = ...` and merged by
`handlers.update(...)`), `middlewares` a list. -/
structure BotRawEventView (D F R M : Type) where
  handlers : List (String × BotHandlerBasement D F R)
  middlewares : List M
deriving DecidableEq

/-- Per-instance BotLabeler state: the two fixed views, `auto_rules` and
`rule_config`. The `custom_rules` attribute is not a field: in the source
it is an alias of the module-level CUSTOM_RULES dictionary, modelled by
`RuleWorld` and `BotLabeler.custom_rules` below. -/
structure BotLabeler (F R M D : Type) where
  message_view : BotMessageView F R M
  raw_event_view : BotRawEventView D F R M
  auto_rules : List R
  rule_config : RuleConfig
deriving DecidableEq

/-- Module-level mutable state of `default.py`: the single CUSTOM_RULES
dictionary, mapping rule names to rule constructors of type `RC`. -/
structure RuleWorld (RC : Type) where
  CUSTOM_RULES : List (String × RC)

/-- BotLabeler.__init__: runs
`CUSTOM_RULES.update(kwargs.get("custom_rules", {}))` against the
module-level dictionary, creates fresh fixed views, empty `auto_rules` and
the two-key `rule_config`; returns the updated module state and the new
instance. -/
def BotLabeler.construct {F R M D RC : Type} (w : RuleWorld RC)
    (custom_rules_kwargs : List (String × RC)) :
    RuleWorld RC × BotLabeler F R M D :=
  (⟨dictUpdate w.CUSTOM_RULES custom_rules_kwargs⟩,
    ⟨⟨[], []⟩, ⟨[], []⟩, [], initRuleConfig⟩)

/-- The `custom_rules` attribute of any BotLabeler instance: `__init__`
executes `self.custom_rules = CUSTOM_RULES`, so every instance aliases the
one module-level dictionary; a read through any instance sees the current
module state. -/
def BotLabeler.custom_rules {F R M D RC : Type} (w : RuleWorld RC)
    (_self : BotLabeler F R M D) : List (String × RC) :=
  w.CUSTOM_RULES

/-- BotLabeler.load: extends the message view's handler and middleware
lists, `update`s the raw event view's handler dictionary and extends its
middleware list. -/
def BotLabeler.load {F R M D : Type} (self labeler : BotLabeler F R M D) :
    BotLabeler F R M D :=
  { self with
    message_view :=
      ⟨self.message_view.handlers ++ labeler.message_view.handlers,
        self.message_view.middlewares ++ labeler.message_view.middlewares⟩,
    raw_event_view :=
      ⟨dictUpdate self.raw_event_view.handlers labeler.raw_event_view.handlers,
        self.raw_event_view.middlewares ++ labeler.raw_event_view.middlewares⟩ }

/-- Resolution of the shorthand keyword rules, from
`BotLabeler.get_custom_rules`: the list comprehension
`[self.custom_rules[k].with_config(self.rule_config)(v) for k, v in
custom_rules.items()]` evaluated left to right; the first name absent from
the registry raises `KeyError(k)`, modelled as `Except.error k`. A
constructor is a function from the rule config and the keyword value to a
rule. -/
def resolveCustomRules {A R : Type}
    (registry : List (String × (RuleConfig → A → R))) (cfg : RuleConfig) :
    List (String × A) → Except String (List R)
  | [] => .ok []
  | (k, v) :: rest =>
    match dictLookup k registry with
    | none => .error k
    | some ctor =>
      match resolveCustomRules registry cfg rest with
      | .error k2 => .error k2
      | .ok rs => .ok (ctor cfg v :: rs)

/-- BotLabeler.get_custom_rules: resolves the keyword dictionary against
the instance's `custom_rules` alias (the module registry) with the
instance's `rule_config`. -/
def BotLabeler.get_custom_rules {F R M D A : Type}
    (w : RuleWorld (RuleConfig → A → R)) (self : BotLabeler F R M D)
    (custom_rules_kw : List (String × A)) : Except String (List R) :=
  resolveCustomRules (BotLabeler.custom_rules w self) self.rule_config
    custom_rules_kw

/-- BotLabeler.message decorator applied to `func`: appends
`FromFuncHandler(func, *rules, *self.auto_rules,
*self.get_custom_rules(custom_rules), blocking=blocking)` to the message
view. A `KeyError` escaping `get_custom_rules` aborts the registration
before the append. -/
def BotLabeler.message {F R M D A : Type}
    (w : RuleWorld (RuleConfig → A → R)) (self : BotLabeler F R M D)
    (rules : List R) (blocking : Bool) (custom_rules_kw : List (String × A))
    (func : F) : Except String (BotLabeler F R M D) :=
  match BotLabeler.get_custom_rules w self custom_rules_kw with
  | .error k => .error k
  | .ok crs => .ok { self with
      message_view := { self.message_view with
        handlers := self.message_view.handlers ++
          [⟨func, rules ++ self.auto_rules ++ crs, blocking⟩] } }

/-- BotLabeler.chat_message: like `message` with `PeerRule(True)` put in
front of the rule list; `peerRule` stands for the PeerRule constructor from
`vkbottle.dispatch.rules.bot` (outside src). -/
def BotLabeler.chat_message {F R M D A : Type} (peerRule : Bool → R)
    (w : RuleWorld (RuleConfig → A → R)) (self : BotLabeler F R M D)
    (rules : List R) (blocking : Bool) (custom_rules_kw : List (String × A))
    (func : F) : Except String (BotLabeler F R M D) :=
  match BotLabeler.get_custom_rules w self custom_rules_kw with
  | .error k => .error k
  | .ok crs => .ok { self with
      message_view := { self.message_view with
        handlers := self.message_view.handlers ++
          [⟨func, peerRule true :: rules ++ self.auto_rules ++ crs,
            blocking⟩] } }

/-- BotLabeler.private_message: like `message` with `PeerRule(False)` put
in front of the rule list. -/
def BotLabeler.private_message {F R M D A : Type} (peerRule : Bool → R)
    (w : RuleWorld (RuleConfig → A → R)) (self : BotLabeler F R M D)
    (rules : List R) (blocking : Bool) (custom_rules_kw : List (String × A))
    (func : F) : Except String (BotLabeler F R M D) :=
  match BotLabeler.get_custom_rules w self custom_rules_kw with
  | .error k => .error k
  | .ok crs => .ok { self with
      message_view := { self.message_view with
        handlers := self.message_view.handlers ++
          [⟨func, peerRule false :: rules ++ self.auto_rules ++ crs,
            blocking⟩] } }

/-- BotLabeler.raw_event decorator applied to `func`: for each event name
assigns a BotHandlerBasement into the raw event view's handler dictionary.
`get_custom_rules` runs inside the loop body, so an unknown name raises on
the first iteration, before any assignment; the source passes no blocking
flag, leaving the handler's default (`True`, from the FromFuncHandler
signature outside src). -/
def BotLabeler.raw_event {F R M D A : Type}
    (w : RuleWorld (RuleConfig → A → R)) (self : BotLabeler F R M D)
    (event : StrArg) (dataclass : D) (rules : List R)
    (custom_rules_kw : List (String × A)) (func : F) :
    Except String (BotLabeler F R M D) :=
  let events := match event with | .single s => [s] | .list l => l
  match BotLabeler.get_custom_rules w self custom_rules_kw with
  | .error k => .error k
  | .ok crs => .ok { self with
      raw_event_view := { self.raw_event_view with
        handlers := events.foldl
          (fun acc e => dictSet acc e
            ⟨dataclass, ⟨func, rules ++ self.auto_rules ++ crs, true⟩⟩)
          self.raw_event_view.handlers } }

/-- Operations of BotLabeler that write into `rule_config`: the three
property setters of `default.py`. The `vbml_ignore_case` setter reads and
rewrites `rule_config["vbml_flags"]` (xor to drop the flag, or to add it);
the other two overwrite their own key. -/
inductive LabelerOp where
  | set_vbml_ignore_case (b : Bool)
  | set_vbml_patcher
  | set_vbml_flags (n : Nat)

/-- Effect of one rule-config-writing operation on `rule_config`. -/
def applyLabelerOp (cfg : RuleConfig) : LabelerOp → RuleConfig
  | .set_vbml_ignore_case b =>
    match dictLookup ("vbml_flags") cfg with
    | some (.flags n) =>
      dictSet cfg ("vbml_flags") (.flags (if b then n ||| 2 else n ^^^ 2))
    | _ => cfg
  | .set_vbml_patcher => dictSet cfg ("vbml_patcher") ConfigVal.patcher
  | .set_vbml_flags n => dictSet cfg ("vbml_flags") (ConfigVal.flags n)

/-- The `vbml_ignore_case` property getter:
`re.IGNORECASE in self.rule_config["flags"]`. The dictionary read of a
missing key raises `KeyError`, modelled as `Except.error` carrying the
key. -/
def vbml_ignore_case (cfg : RuleConfig) : Except String Bool :=
  match dictLookup ("flags") cfg with
  | none => .error ("flags")
  | some (.flags n) => .ok (decide (n &&& 2 = 2))
  | some .patcher => .error ("TypeError")

/-- Sample labeler for the load theorems: one raw handler under event name
e, with function id 1. -/
def loadDemoR : BotLabeler Nat Unit Nat Unit :=
  ⟨⟨[], []⟩, ⟨[(("e"), ⟨(), ⟨1, [], true⟩⟩)], []⟩, [], initRuleConfig⟩

/-- Sample labeler for the load theorems: one raw handler under the same
event name e, with function id 2. -/
def loadDemoF : BotLabeler Nat Unit Nat Unit :=
  ⟨⟨[], []⟩, ⟨[(("e"), ⟨(), ⟨2, [], true⟩⟩)], []⟩, [], initRuleConfig⟩

/-- Sample labeler with a raw handler under event name a. -/
def loadDemoR2 : BotLabeler Nat Unit Nat Unit :=
  ⟨⟨[], []⟩, ⟨[(("a"), ⟨(), ⟨1, [], true⟩⟩)], []⟩, [], initRuleConfig⟩

/-- Sample labeler with a raw handler under event name b. -/
def loadDemoF2 : BotLabeler Nat Unit Nat Unit :=
  ⟨⟨[], []⟩, ⟨[(("b"), ⟨(), ⟨2, [], true⟩⟩)], []⟩, [], initRuleConfig⟩

end Labeler

theorem dictLookup_map_set {K V : Type} [DecidableEq K]
    (d : List (K × V)) (k k' : K) (v : V) (h : k' ≠ k) :
    dictLookup k' (d.map (fun p => if p.1 = k then (p.1, v) else p)) =
      dictLookup k' d := by
  induction d with
  | nil => rfl
  | cons p d ih =>
    by_cases hp : p.1 = k
    · simp [dictLookup, hp, Ne.symm h, ih]
    · by_cases hp' : p.1 = k'
      · simp [dictLookup, hp, hp', h]
      · simp [dictLookup, hp, hp', ih]

theorem dictLookup_append_single {K V : Type} [DecidableEq K]
    (d : List (K × V)) (k k' : K) (v : V) (h : k' ≠ k) :
    dictLookup k' (d ++ [(k, v)]) = dictLookup k' d := by
  induction d with
  | nil => simp [dictLookup, Ne.symm h]
  | cons p d ih =>
    by_cases hp : p.1 = k'
    · simp [dictLookup, hp]
    · simp [dictLookup, hp, ih]

theorem dictSet_lookup_ne {K V : Type} [DecidableEq K]
    (d : List (K × V)) (k k' : K) (v : V) (h : k' ≠ k) :
    dictLookup k' (dictSet d k v) = dictLookup k' d := by
  unfold dictSet
  split
  · exact dictLookup_map_set d k k' v h
  · exact dictLookup_append_single d k k' v h

theorem dictSet_lookup_self {K V : Type} [DecidableEq K]
    (d : List (K × V)) (k : K) (v : V) :
    dictLookup k (dictSet d k v) = some v := by
  unfold dictSet
  split
  · rename_i hany
    induction d with
    | nil => simp at hany
    | cons q d ih =>
      simp only [List.any_cons, Bool.or_eq_true] at hany
      by_cases hq : q.1 = k
      · simp [dictLookup, hq]
      · have htail : d.any (fun p => p.1 = k) = true := by
          rcases hany with h1 | h2
          · exact absurd (by simpa using h1) hq
          · exact h2
        simp [dictLookup, hq, ih htail]
  · rename_i hany
    induction d with
    | nil => simp [dictLookup]
    | cons q d ih =>
      simp only [List.any_cons, Bool.or_eq_true, not_or] at hany
      have hq : ¬ q.1 = k := by simpa using hany.1
      simpa [dictLookup, hq] using ih (by simpa using hany.2)

theorem lev_nil_right (xs : List Char) : lev xs [] = xs.length := by
  cases xs <;> simp [lev]

theorem lev_symm (xs : List Char) : ∀ ys, lev xs ys = lev ys xs := by
  induction xs with
  | nil => intro ys; cases ys <;> simp [lev]
  | cons x xs ihx =>
    intro ys
    induction ys with
    | nil => simp [lev]
    | cons y ys ihy =>
      have hc : (if x = y then 0 else 1) = (if y = x then 0 else 1) := by
        by_cases hxy : x = y
        · simp [hxy]
        · simp [hxy, Ne.symm hxy]
      simp only [lev]
      rw [ihx (y :: ys), ihx ys, ihy, hc]
      exact min_left_comm _ _ _

theorem levRowAux_spec (bc : Char) (rb : List Char) :
    ∀ (as ra : List Char),
      prefRowFrom (bc :: rb) ra as =
        lev ra (bc :: rb) ::
          levRowAux bc (lev ra (bc :: rb)) as (prefRowFrom rb ra as) := by
  intro as
  induction as with
  | nil => intro ra; simp [prefRowFrom, levRowAux]
  | cons x xs ih =>
    intro ra
    have ht : prefRowFrom rb (x :: ra) xs =
        lev (x :: ra) rb :: (prefRowFrom rb (x :: ra) xs).tail := by
      cases xs <;> rfl
    have hcur :
        min (lev (x :: ra) rb + 1)
            (min (lev ra (bc :: rb) + 1)
              (lev ra rb + (if x = bc then 0 else 1))) =
          lev (x :: ra) (bc :: rb) := by
      have hl : lev (x :: ra) (bc :: rb) =
          min (lev ra (bc :: rb) + 1)
            (min (lev (x :: ra) rb + 1)
              (lev ra rb + (if x = bc then 0 else 1))) := by
        simp [lev]
      rw [hl]
      exact min_left_comm _ _ _
    have hstep :
        levRowAux bc (lev ra (bc :: rb)) (x :: xs) (prefRowFrom rb ra (x :: xs)) =
          lev (x :: ra) (bc :: rb) ::
            levRowAux bc (lev (x :: ra) (bc :: rb)) xs
              (prefRowFrom rb (x :: ra) xs) := by
      conv_lhs =>
        rw [show prefRowFrom rb ra (x :: xs) =
          lev ra rb :: prefRowFrom rb (x :: ra) xs from rfl, ht]
      simp only [levRowAux]
      rw [← ht, hcur]
    calc prefRowFrom (bc :: rb) ra (x :: xs)
        = lev ra (bc :: rb) :: prefRowFrom (bc :: rb) (x :: ra) xs := rfl
      _ = lev ra (bc :: rb) ::
            lev (x :: ra) (bc :: rb) ::
              levRowAux bc (lev (x :: ra) (bc :: rb)) xs
                (prefRowFrom rb (x :: ra) xs) := by rw [ih (x :: ra)]
      _ = lev ra (bc :: rb) ::
            levRowAux bc (lev ra (bc :: rb)) (x :: xs)
              (prefRowFrom rb ra (x :: xs)) := by rw [hstep]

theorem levRows_spec (a : List Char) :
    ∀ (bs rb : List Char),
      levRows a bs (rb.length + 1) (prefRowFrom rb [] a) =
        prefRowFrom (bs.reverseAux rb) [] a := by
  intro bs
  induction bs with
  | nil => intro rb; rfl
  | cons bc bs ih =>
    intro rb
    have hnext : levNextRow a bc (rb.length + 1) (prefRowFrom rb [] a) =
        prefRowFrom (bc :: rb) [] a := by
      unfold levNextRow
      have hlen : rb.length + 1 = lev [] (bc :: rb) := by simp [lev]
      rw [hlen]
      exact (levRowAux_spec bc rb a []).symm
    show levRows a bs (rb.length + 1 + 1)
        (levNextRow a bc (rb.length + 1) (prefRowFrom rb [] a)) = _
    rw [hnext]
    have hlen2 : rb.length + 1 + 1 = (bc :: rb).length + 1 := by simp
    rw [hlen2]
    exact ih (bc :: rb)

theorem prefRowFrom_nil (as : List Char) :
    ∀ ra, prefRowFrom [] ra as = List.range' ra.length (as.length + 1) := by
  induction as with
  | nil =>
    intro ra
    simp [prefRowFrom, lev_nil_right, List.range']
  | cons x xs ih =>
    intro ra
    show lev ra [] :: prefRowFrom [] (x :: ra) xs = _
    rw [lev_nil_right, ih (x :: ra)]
    simp [List.range'_succ]

theorem prefRowFrom_getD (as : List Char) :
    ∀ (ra rb : List Char),
      (prefRowFrom rb ra as).getD as.length 0 = lev (as.reverseAux ra) rb := by
  induction as with
  | nil => intro ra rb; rfl
  | cons x xs ih =>
    intro ra rb
    show (lev ra rb :: prefRowFrom rb (x :: ra) xs).getD (xs.length + 1) 0 = _
    rw [List.getD_cons_succ]
    exact ih (x :: ra) rb

theorem levRows_getD (x y : List Char) :
    (levRows x y 1 (List.range (x.length + 1))).getD x.length 0 =
      lev x.reverse y.reverse := by
  have h0 : List.range (x.length + 1) = prefRowFrom [] [] x := by
    rw [prefRowFrom_nil x []]
    simp [List.range_eq_range']
  rw [h0]
  have h1 := levRows_spec x y []
  simp only [List.length_nil, Nat.zero_add] at h1
  rw [h1, prefRowFrom_getD]
  rw [show y.reverseAux [] = y.reverse from (List.reverseAux_eq y []).trans
    (List.append_nil _),
    show x.reverseAux [] = x.reverse from (List.reverseAux_eq x []).trans
    (List.append_nil _)]

theorem distance_eq_lev_reverse (a b : String) :
    LevensteinRule.distance a b =
      if a.length > b.length then lev b.data.reverse a.data.reverse
      else lev a.data.reverse b.data.reverse := by
  by_cases h : a.length > b.length
  · simp only [LevensteinRule.distance, if_pos h]
    exact levRows_getD b.data a.data
  · simp only [LevensteinRule.distance, if_neg h]
    exact levRows_getD a.data b.data

theorem distance_symm (a b : String) :
    LevensteinRule.distance a b = LevensteinRule.distance b a := by
  rw [distance_eq_lev_reverse, distance_eq_lev_reverse]
  by_cases h : a.length > b.length
  · have h2 : ¬ b.length > a.length := by omega
    rw [if_pos h, if_neg h2]
  · by_cases h2 : b.length > a.length
    · rw [if_neg h, if_pos h2]
    · rw [if_neg h, if_neg h2]
      exact lev_symm _ _

theorem listenRun_starts_with_poll {E : Type} (oracle : Nat → Server)
    (os : List (PollOutcome E)) (srv : Server) (k : Nat) (h : os ≠ []) :
    (UserPolling.listenRun oracle os srv k).1.head? =
      some (TransportCall.poll srv) := by
  cases os with
  | nil => cases h rfl
  | cons o os =>
    cases o with
    | success ev =>
      by_cases hf : ev.failedTruthy <;>
        simp [UserPolling.listenRun, hf]
    | failure e => simp [UserPolling.listenRun]

/-- C4: when a poll response signals session expiry (truthy `failed`), the
batch is not yielded and the error handler is not invoked (the remaining
yields and handled exceptions are exactly those of the rest of the run),
the transport call issued right after that poll is `get_server`, and the
rest of the run starts from the freshly acquired descriptor — its first
transport call, when any, is a poll with the fresh descriptor, not with the
stale one. -/
theorem listen_failed_reacquires {E : Type} (oracle : Nat → Server)
    (ev : PollEvent) (os : List (PollOutcome E)) (srv : Server) (k : Nat)
    (h : ev.failedTruthy = true) :
    UserPolling.listenRun oracle (.success ev :: os) srv k =
      (TransportCall.poll srv :: TransportCall.getServer ::
          (UserPolling.listenRun oracle os (oracle k) (k + 1)).1,
        (UserPolling.listenRun oracle os (oracle k) (k + 1)).2.1,
        (UserPolling.listenRun oracle os (oracle k) (k + 1)).2.2) ∧
    (os ≠ [] →
      (UserPolling.listenRun oracle os (oracle k) (k + 1)).1.head? =
        some (TransportCall.poll (oracle k))) := by
  constructor
  · simp [UserPolling.listenRun, h]
  · intro hne
    exact listenRun_starts_with_poll oracle os (oracle k) (k + 1) hne

/-- Witness for listen_failed_reacquires: a run whose first poll reports
expiry code 2 re-acquires the session and then polls the fresh
descriptor. -/
theorem listen_failed_reacquires_witness :
    UserPolling.listenRun (E := Unit) (fun _ => ⟨("s2"), ("k2"), 0⟩)
        [.success ⟨some 2, 5⟩, .success ⟨none, 7⟩] ⟨("s1"), ("k1"), 3⟩ 1 =
      ([.poll ⟨("s1"), ("k1"), 3⟩, .getServer, .poll ⟨("s2"), ("k2"), 0⟩],
        [⟨none, 7⟩], []) := by
  have h := listen_failed_reacquires (E := Unit) (fun _ => ⟨("s2"), ("k2"), 0⟩)
    ⟨some 2, 5⟩ [.success ⟨none, 7⟩] ⟨("s1"), ("k1"), 3⟩ 1 (by decide)
  rw [h.1]
  decide

/-- C5: when the transport raises, the error handler receives exactly that
exception once for the iteration, nothing is yielded for the iteration, and
the loop continues with the same session descriptor (same `server`, `key`
and `ts`) and the same `get_server` counter — its next transport call, when
any, is a poll with the unchanged descriptor. -/
theorem listen_error_handled {E : Type} (oracle : Nat → Server) (e : E)
    (os : List (PollOutcome E)) (srv : Server) (k : Nat) :
    UserPolling.listenRun oracle (.failure e :: os) srv k =
      (TransportCall.poll srv :: (UserPolling.listenRun oracle os srv k).1,
        (UserPolling.listenRun oracle os srv k).2.1,
        e :: (UserPolling.listenRun oracle os srv k).2.2) ∧
    (os ≠ [] →
      (UserPolling.listenRun oracle os srv k).1.head? =
        some (TransportCall.poll srv)) := by
  constructor
  · simp [UserPolling.listenRun]
  · intro hne
    exact listenRun_starts_with_poll oracle os srv k hne

/-- Witness for listen_error_handled: a run whose first poll raises resumes
polling the same descriptor and hands the exception to the handler once. -/
theorem listen_error_handled_witness :
    UserPolling.listenRun (E := Nat) (fun _ => ⟨("s2"), ("k2"), 0⟩)
        [.failure 9, .success ⟨none, 7⟩] ⟨("s1"), ("k1"), 3⟩ 1 =
      ([.poll ⟨("s1"), ("k1"), 3⟩, .poll ⟨("s1"), ("k1"), 3⟩],
        [⟨none, 7⟩], [9]) := by
  have h := listen_error_handled (E := Nat) (fun _ => ⟨("s2"), ("k2"), 0⟩)
    9 [.success ⟨none, 7⟩] ⟨("s1"), ("k1"), 3⟩ 1
  rw [h.1]
  decide

theorem dictSet_fresh {K V : Type} [DecidableEq K]
    (d : List (K × V)) (k : K) (v : V) (h : k ∉ d.map Prod.fst) :
    dictSet d k v = d ++ [(k, v)] := by
  unfold dictSet
  rw [if_neg]
  intro hany
  rw [List.any_eq_true] at hany
  obtain ⟨p, hp, hpk⟩ := hany
  exact h (List.mem_map.mpr ⟨p, hp, by simpa using hpk⟩)

theorem dictUpdate_append {K V : Type} [DecidableEq K] :
    ∀ (o d : List (K × V)), (o.map Prod.fst).Nodup →
      (∀ k ∈ o.map Prod.fst, k ∉ d.map Prod.fst) →
      dictUpdate d o = d ++ o := by
  intro o
  induction o with
  | nil => intro d _ _; simp [dictUpdate]
  | cons p o ih =>
    intro d hnd hdisj
    obtain ⟨k, v⟩ := p
    have hk : k ∉ d.map Prod.fst := hdisj k (by simp)
    have hnd2 : (o.map Prod.fst).Nodup := (List.nodup_cons.mp (by simpa using hnd)).2
    have hknotin : k ∉ o.map Prod.fst := (List.nodup_cons.mp (by simpa using hnd)).1
    have hstep : dictUpdate d ((k, v) :: o) = dictUpdate (d ++ [(k, v)]) o := by
      simp [dictUpdate, dictSet_fresh d k v hk]
    rw [hstep, ih (d ++ [(k, v)]) hnd2 ?disj]
    · simp
    case disj =>
      intro k2 hk2
      have h1 : k2 ∉ d.map Prod.fst := hdisj k2 (by simp [hk2])
      have h2 : k2 ≠ k := fun he => hknotin (he ▸ hk2)
      simp [List.mem_append, h1, h2]

theorem resolveCustomRules_error_of_unknown {A R : Type}
    (registry : List (String × (RuleConfig → A → R))) (cfg : RuleConfig) :
    ∀ kw : List (String × A),
      (∃ k ∈ kw.map Prod.fst, dictLookup k registry = none) →
      ∃ k2, resolveCustomRules registry cfg kw = .error k2 ∧
        dictLookup k2 registry = none ∧ k2 ∈ kw.map Prod.fst := by
  intro kw
  induction kw with
  | nil => rintro ⟨k, hk, _⟩; simp at hk
  | cons p rest ih =>
    rintro ⟨k, hk, hnone⟩
    obtain ⟨k0, v⟩ := p
    cases h1 : dictLookup k0 registry with
    | none =>
      exact ⟨k0, by simp [resolveCustomRules, h1], h1, by simp⟩
    | some ctor =>
      have hkrest : k ∈ rest.map Prod.fst := by
        rcases (by simpa using hk : k = k0 ∨ k ∈ rest.map Prod.fst) with he | hm
        · rw [he] at hnone; rw [hnone] at h1; cases h1
        · exact hm
      obtain ⟨k2, herr, hn2, hm2⟩ := ih ⟨k, hkrest, hnone⟩
      exact ⟨k2, by simp [resolveCustomRules, h1, herr], hn2, by simp [hm2]⟩

theorem resolveCustomRules_unknown_of_error {A R : Type}
    (registry : List (String × (RuleConfig → A → R))) (cfg : RuleConfig) :
    ∀ (kw : List (String × A)) (k : String),
      resolveCustomRules registry cfg kw = .error k →
      dictLookup k registry = none ∧ k ∈ kw.map Prod.fst := by
  intro kw
  induction kw with
  | nil => intro k h; cases h
  | cons p rest ih =>
    intro k h
    obtain ⟨k0, v⟩ := p
    cases h1 : dictLookup k0 registry with
    | none =>
      have he : k0 = k := by
        simpa [resolveCustomRules, h1] using h
      rw [← he]
      exact ⟨h1, by simp⟩
    | some ctor =>
      cases h2 : resolveCustomRules registry cfg rest with
      | error k2 =>
        have he : k2 = k := by
          simpa [resolveCustomRules, h1, h2] using h
        obtain ⟨hn, hm⟩ := ih k2 h2
        rw [← he]
        exact ⟨hn, by simp [hm]⟩
      | ok rs => simp [resolveCustomRules, h1, h2] at h

theorem get_custom_rules_error_iff {F R M D A : Type}
    (w : RuleWorld (RuleConfig → A → R)) (self : BotLabeler F R M D)
    (kw : List (String × A)) :
    (∃ e, BotLabeler.get_custom_rules w self kw = .error e) ↔
      ∃ k ∈ kw.map Prod.fst,
        dictLookup k (BotLabeler.custom_rules w self) = none := by
  constructor
  · rintro ⟨e, he⟩
    obtain ⟨hn, hm⟩ := resolveCustomRules_unknown_of_error _ _ kw e he
    exact ⟨e, hm, hn⟩
  · intro hU
    obtain ⟨k2, herr, _, _⟩ :=
      resolveCustomRules_error_of_unknown (BotLabeler.custom_rules w self)
        self.rule_config kw hU
    exact ⟨k2, herr⟩

theorem message_error_iff {F R M D A : Type}
    (w : RuleWorld (RuleConfig → A → R)) (self : BotLabeler F R M D)
    (rules : List R) (blocking : Bool) (kw : List (String × A)) (func : F)
    (e : String) :
    BotLabeler.message w self rules blocking kw func = .error e ↔
      BotLabeler.get_custom_rules w self kw = .error e := by
  cases h : BotLabeler.get_custom_rules w self kw <;>
    simp [BotLabeler.message, h]

theorem chat_message_error_iff {F R M D A : Type} (peerRule : Bool → R)
    (w : RuleWorld (RuleConfig → A → R)) (self : BotLabeler F R M D)
    (rules : List R) (blocking : Bool) (kw : List (String × A)) (func : F)
    (e : String) :
    BotLabeler.chat_message peerRule w self rules blocking kw func =
        .error e ↔
      BotLabeler.get_custom_rules w self kw = .error e := by
  cases h : BotLabeler.get_custom_rules w self kw <;>
    simp [BotLabeler.chat_message, h]

theorem private_message_error_iff {F R M D A : Type} (peerRule : Bool → R)
    (w : RuleWorld (RuleConfig → A → R)) (self : BotLabeler F R M D)
    (rules : List R) (blocking : Bool) (kw : List (String × A)) (func : F)
    (e : String) :
    BotLabeler.private_message peerRule w self rules blocking kw func =
        .error e ↔
      BotLabeler.get_custom_rules w self kw = .error e := by
  cases h : BotLabeler.get_custom_rules w self kw <;>
    simp [BotLabeler.private_message, h]

theorem raw_event_error_iff {F R M D A : Type}
    (w : RuleWorld (RuleConfig → A → R)) (self : BotLabeler F R M D)
    (event : StrArg) (dataclass : D) (rules : List R)
    (kw : List (String × A)) (func : F) (e : String) :
    BotLabeler.raw_event w self event dataclass rules kw func = .error e ↔
      BotLabeler.get_custom_rules w self kw = .error e := by
  cases h : BotLabeler.get_custom_rules w self kw <;>
    simp [BotLabeler.raw_event, h]

/-- C1: a StateRule configured with `None` or an empty list matches exactly
the messages whose peer has no current state entry; a StateRule configured
with a non-empty list matches exactly the messages whose current state value
is in the list; `None` and the empty list produce identical rules, and a
single value produces the same rule as its singleton list; consequently a
message whose peer state was set to `X` matches the `[X]` rule and not the
`[]` rule. -/
theorem stateRule_spec (σ : Type) [DecidableEq σ] :
    (StateRule.ofArg (StateArg.none (σ := σ)) = StateRule.ofArg (.list [])) ∧
    (∀ s : σ, StateRule.ofArg (.single s) = StateRule.ofArg (.list [s])) ∧
    (∀ m : Message σ,
      (StateRule.ofArg (.list [])).check m = true ↔ m.state_peer = none) ∧
    (∀ (l : List σ) (m : Message σ), l ≠ [] →
      ((StateRule.ofArg (.list l)).check m = true ↔
        ∃ sp, m.state_peer = some sp ∧ sp.state ∈ l)) ∧
    (∀ (X : σ) (m : Message σ), m.state_peer = some ⟨X⟩ →
      (StateRule.ofArg (.list [X])).check m = true ∧
      (StateRule.ofArg (.list [])).check m = false) := by
  refine ⟨rfl, fun s => rfl, fun m => ?_, fun l m hl => ?_, fun X m hm => ?_⟩
  · cases hsp : m.state_peer <;> simp [StateRule.check, StateRule.ofArg, hsp]
  · cases hsp : m.state_peer with
    | none =>
      simp only [StateRule.check, StateRule.ofArg, hsp, List.isEmpty_iff]
      constructor
      · intro h; exact absurd (by simpa using h) hl
      · rintro ⟨sp, hsp2, _⟩; cases hsp2
    | some sp => simp [StateRule.check, StateRule.ofArg, hsp]
  · constructor <;> simp [StateRule.check, StateRule.ofArg, hm]

/-- Witness for stateRule_spec: evaluates the rule at state value 5 over
Nat-valued states. -/
theorem stateRule_spec_witness :
    (StateRule.ofArg (.list [(5 : Nat)])).check
      ⟨"", [], some ⟨5⟩⟩ = true ∧
    (StateRule.ofArg (.list ([] : List Nat))).check
      ⟨"", [], some ⟨5⟩⟩ = false := by
  have h := (stateRule_spec Nat).2.2.2.2 5 ⟨"", [], some ⟨5⟩⟩ rfl
  exact h

/-- C2: AttachmentTypeRule.check matches exactly the messages that carry at
least one attachment all of whose types are in the configured list; in
particular a message with attachment kinds photo and video does not match a
rule configured with photo alone. -/
theorem attachmentTypeRule_spec (σ : Type) :
    (∀ (r : AttachmentTypeRule) (m : Message σ),
      r.check m = true ↔
        m.attachments ≠ [] ∧ ∀ a ∈ m.attachments, a.type ∈ r.attachment_types) ∧
    ((AttachmentTypeRule.ofArg (.list ["photo"])).check
      (⟨"", [⟨"photo", none⟩, ⟨"video", none⟩], none⟩ : Message σ) = false) := by
  constructor
  · intro r m
    simp [AttachmentTypeRule.check, List.isEmpty_iff, List.all_eq_true]
  · simp [AttachmentTypeRule.check, AttachmentTypeRule.ofArg]

/-- C3: LevensteinRule.distance is symmetric, is 0 on equal strings such as
the empty string and abc, gives 3 between kitten and sitting, and
LevensteinRule.check matches exactly when some configured text is at
distance at most max_distance from the message text. -/
theorem levensteinRule_spec :
    (∀ a b : String,
      LevensteinRule.distance a b = LevensteinRule.distance b a) ∧
    LevensteinRule.distance ("") ("") = 0 ∧
    LevensteinRule.distance ("abc") ("abc") = 0 ∧
    LevensteinRule.distance ("kitten") ("sitting") = 3 ∧
    (∀ (σ : Type) (r : LevensteinRule) (m : Message σ),
      r.check m = true ↔
        ∃ t ∈ r.levenstein_texts,
          (LevensteinRule.distance m.text t : Int) ≤ r.max_distance) := by
  refine ⟨distance_symm, by decide, by decide, by decide, fun σ r m => ?_⟩
  simp [LevensteinRule.check, List.any_eq_true]

/-- C7 counterexample: a StickerRule configured with the boolean `True` does
not match a message whose first attachment is a sticker with id 2, because
Python keeps `[True]` as the id list and `2 in [True]` is `2 == True`,
i.e. `2 == 1`, which is false. -/
theorem stickerRule_flag_true_not_any :
    (StickerRule.ofArg (.flag true)).check
      (⟨"", [⟨"sticker", some ⟨2⟩⟩], none⟩ : Message Nat) = false := by
  decide

/-- C7 amended: StickerRule.check matches exactly the messages whose first
attachment is a sticker with an empty configured id list or with the
sticker id in the list; the empty-list configuration matches any sticker,
while the boolean configuration `b` coincides with the single id `1` (for
`True`) or `0` (for `False`), matching only stickers with that id. -/
theorem stickerRule_spec (σ : Type) :
    (∀ (r : StickerRule) (m : Message σ),
      r.check m = true ↔
        ∃ a rest st, m.attachments = a :: rest ∧ a.sticker = some st ∧
          (r.sticker_ids = [] ∨ st.sticker_id ∈ r.sticker_ids)) ∧
    (∀ b : Bool,
      StickerRule.ofArg (.flag b) =
        StickerRule.ofArg (.id (if b then 1 else 0))) ∧
    (∀ (m : Message σ) (a : Attachment) (rest : List Attachment)
        (st : Sticker), m.attachments = a :: rest → a.sticker = some st →
      (StickerRule.ofArg (.ids [])).check m = true) := by
  refine ⟨fun r m => ?_, fun b => by cases b <;> rfl, fun m a rest st ha hs => ?_⟩
  · cases hatt : m.attachments with
    | nil => simp [StickerRule.check, hatt]
    | cons a rest =>
      cases hs : a.sticker with
      | none => simp [StickerRule.check, hatt, hs]
      | some st =>
        simp [StickerRule.check, hatt, hs, List.isEmpty_iff]
  · simp [StickerRule.check, ha, hs, StickerRule.ofArg]

/-- Witness for stickerRule_spec: the empty-set rule matches a concrete
sticker message. -/
theorem stickerRule_spec_witness :
    (StickerRule.ofArg (.ids [])).check
      (⟨"", [⟨"sticker", some ⟨2⟩⟩], none⟩ : Message Nat) = true := by
  exact (stickerRule_spec Nat).2.2 ⟨"", [⟨"sticker", some ⟨2⟩⟩], none⟩
    ⟨"sticker", some ⟨2⟩⟩ [] ⟨2⟩ rfl rfl

/-- C6 counterexample: loading a fragment whose raw-event view has a
handler under the same event name as the target labeler does not leave the
target's handlers in place with the fragment's appended — the dictionary
update replaces the target's entry, which is gone from the merged view. -/
theorem load_raw_event_overwrites :
    (loadDemoR.load loadDemoF).raw_event_view.handlers ≠
      loadDemoR.raw_event_view.handlers ++
        loadDemoF.raw_event_view.handlers ∧
    (("e"), (⟨(), ⟨1, [], true⟩⟩ : BotHandlerBasement Unit Nat Unit)) ∉
      (loadDemoR.load loadDemoF).raw_event_view.handlers := by
  decide

/-- C6 amended: load appends the fragment's message-view handlers and the
middlewares of both views after the target's, preserving the target's
order as a prefix; the raw-event view's handlers are instead merged as a
keyed dictionary update, which coincides with append only when the
fragment's event names are distinct and none is already present in the
target (on a shared name the fragment's handler replaces the target's). -/
theorem load_spec {F R M D : Type} (r f : BotLabeler F R M D) :
    (r.load f).message_view.handlers =
      r.message_view.handlers ++ f.message_view.handlers ∧
    (r.load f).message_view.middlewares =
      r.message_view.middlewares ++ f.message_view.middlewares ∧
    (r.load f).raw_event_view.middlewares =
      r.raw_event_view.middlewares ++ f.raw_event_view.middlewares ∧
    (r.load f).raw_event_view.handlers =
      dictUpdate r.raw_event_view.handlers f.raw_event_view.handlers ∧
    ((f.raw_event_view.handlers.map Prod.fst).Nodup →
      (∀ k ∈ f.raw_event_view.handlers.map Prod.fst,
        k ∉ r.raw_event_view.handlers.map Prod.fst) →
      (r.load f).raw_event_view.handlers =
        r.raw_event_view.handlers ++ f.raw_event_view.handlers) :=
  ⟨rfl, rfl, rfl, rfl,
    fun hnd hdisj => dictUpdate_append _ _ hnd hdisj⟩

/-- Witness for load_spec: loading a fragment with a fresh raw event name
appends its handler after the target's. -/
theorem load_spec_witness :
    (loadDemoR2.load loadDemoF2).raw_event_view.handlers =
      loadDemoR2.raw_event_view.handlers ++
        loadDemoF2.raw_event_view.handlers :=
  (load_spec loadDemoR2 loadDemoF2).2.2.2.2 (by decide) (by decide)

/-- C8: each labeler decorator (message, chat_message, private_message and
raw_event) fails at registration time with the registry-lookup KeyError
exactly when some name among the custom-rule keywords is absent from the
labeler's custom-rule registry; a successful registration implies every
name was resolved, so an unknown name never survives to dispatch-time rule
evaluation. -/
theorem registration_unknown_rule {F R M D A : Type}
    (w : RuleWorld (RuleConfig → A → R)) (self : BotLabeler F R M D)
    (peerRule : Bool → R) (rules : List R) (blocking : Bool)
    (kw : List (String × A)) (func : F) (event : StrArg) (dataclass : D) :
    ((∃ e, BotLabeler.message w self rules blocking kw func = .error e) ↔
      ∃ k ∈ kw.map Prod.fst,
        dictLookup k (BotLabeler.custom_rules w self) = none) ∧
    ((∃ e, BotLabeler.chat_message peerRule w self rules blocking kw func =
        .error e) ↔
      ∃ k ∈ kw.map Prod.fst,
        dictLookup k (BotLabeler.custom_rules w self) = none) ∧
    ((∃ e, BotLabeler.private_message peerRule w self rules blocking kw
        func = .error e) ↔
      ∃ k ∈ kw.map Prod.fst,
        dictLookup k (BotLabeler.custom_rules w self) = none) ∧
    ((∃ e, BotLabeler.raw_event w self event dataclass rules kw func =
        .error e) ↔
      ∃ k ∈ kw.map Prod.fst,
        dictLookup k (BotLabeler.custom_rules w self) = none) := by
  have hg := get_custom_rules_error_iff w self kw
  refine ⟨?_, ?_, ?_, ?_⟩
  · exact (exists_congr fun e =>
      message_error_iff w self rules blocking kw func e).trans hg
  · exact (exists_congr fun e =>
      chat_message_error_iff peerRule w self rules blocking kw func e).trans hg
  · exact (exists_congr fun e =>
      private_message_error_iff peerRule w self rules blocking kw func e).trans hg
  · exact (exists_congr fun e =>
      raw_event_error_iff w self event dataclass rules kw func e).trans hg

/-- C9: the custom_rules attribute of every BotLabeler instance aliases the
single module-level CUSTOM_RULES dictionary, so any two instances read the
same registry; and after a further labeler is constructed with a
custom_rules keyword binding a name to a rule, reading the registry
through an instance constructed earlier yields that binding — the registry
is process-wide, not per-labeler. -/
theorem custom_rules_process_wide {F R M D RC : Type} (w : RuleWorld RC)
    (earlier other : BotLabeler F R M D) (name : String) (rule : RC) :
    (BotLabeler.custom_rules w earlier = BotLabeler.custom_rules w other) ∧
    (BotLabeler.custom_rules
        (@BotLabeler.construct F R M D RC w [(name, rule)]).1 earlier =
      dictUpdate w.CUSTOM_RULES [(name, rule)]) ∧
    (dictLookup name (BotLabeler.custom_rules
        (@BotLabeler.construct F R M D RC w [(name, rule)]).1 earlier) =
      some rule) := by
  refine ⟨rfl, rfl, ?_⟩
  exact dictSet_lookup_self w.CUSTOM_RULES name rule

/-- C10: on a freshly constructed BotLabeler — and still after any sequence
of the rule-config-writing operations of the class — reading the
vbml_ignore_case property raises KeyError on the key flags, because the
getter looks up rule_config with the key flags while the constructor
creates only vbml_flags and vbml_patcher and no operation ever sets
flags. -/
theorem vbml_ignore_case_raises {F R M D RC : Type} (w : RuleWorld RC)
    (kwargs : List (String × RC)) :
    ∀ ops : List LabelerOp,
      vbml_ignore_case (ops.foldl applyLabelerOp
          (@BotLabeler.construct F R M D RC w kwargs).2.rule_config) =
        .error ("flags") := by
  have inv : ∀ (ops : List LabelerOp) (cfg : RuleConfig),
      dictLookup ("flags") cfg = none →
      dictLookup ("flags") (ops.foldl applyLabelerOp cfg) = none := by
    intro ops
    induction ops with
    | nil => intro cfg h; exact h
    | cons op ops ih =>
      intro cfg h
      rw [List.foldl_cons]
      refine ih _ ?_
      cases op with
      | set_vbml_ignore_case b =>
        unfold applyLabelerOp
        cases hv : dictLookup ("vbml_flags") cfg with
        | none => exact h
        | some v =>
          cases v with
          | flags n => exact (dictSet_lookup_ne _ _ _ _ (by decide)).trans h
          | patcher => exact h
      | set_vbml_patcher =>
        exact (dictSet_lookup_ne _ _ _ _ (by decide)).trans h
      | set_vbml_flags n =>
        exact (dictSet_lookup_ne _ _ _ _ (by decide)).trans h
  intro ops
  have h0 : dictLookup ("flags")
      ((@BotLabeler.construct F R M D RC w kwargs).2.rule_config) = none := rfl
  have hmain := inv ops _ h0
  simp [vbml_ignore_case, hmain]
